import Mathlib

/-!
Shallow embedding of the doc-intel-lab batch PDF processing pipeline
(src/src/utils.py, src/src/azure_client.py, src/src/pdf_processor.py).

External effects (HTTP requests, blob store reads/writes, the Azure SDK
poller) are modelled by oracles: each call site of an external operation
consumes the oracle's answer for that call.  Python exceptions are
modelled by `Except String`; a `try/except` block is a `match` on that
`Except`.  Bytes are modelled as `List Nat`.
-/

namespace DocIntelLab

/-- Bytes of a blob, as in Python `bytes`. -/
abbrev ByteSeq := List Nat

/-! ## utils.py -/

/-- Rightmost index of character `c` in the list, as Python `str.rfind`:
`-1` when absent.  `i` is the index of the head of the remaining list and
`acc` the best index found so far. -/
def rfindAux (c : Char) : List Char → Nat → Int → Int
  | [], _, acc => acc
  | x :: xs, i, acc => rfindAux c xs (i + 1) (if x = c then Int.ofNat i else acc)

/-- Python `p.rfind(c)`. -/
def rfind (c : Char) (p : List Char) : Int :=
  rfindAux c p 0 (-1)

/-- Whether every character of `p` at an index in `[lo, hi)` is a dot:
the `while filenameIndex < dotIndex` scan of `posixpath.splitext`, which
refuses to split when the basename up to the final dot is all dots. -/
def allDotsBetween (p : List Char) (lo hi : Nat) : Bool :=
  ((p.drop lo).take (hi - lo)).all (fun x => x = '.')

/-- Python `os.path.splitext` (posix): split at the rightmost dot that
lies strictly after the rightmost separator, unless the basename's
characters before that dot are all dots. -/
def splitext (p : List Char) : List Char × List Char :=
  let sepIndex := rfind '/' p
  let dotIndex := rfind '.' p
  if dotIndex > sepIndex then
    if allDotsBetween p ((sepIndex + 1).toNat) dotIndex.toNat then
      (p, [])
    else
      (p.take dotIndex.toNat, p.drop dotIndex.toNat)
  else
    (p, [])

/-- The fixed output-name suffix (default of `get_output_filename`). -/
def outputSuffix : String := "_searchable"

/-- utils.get_output_filename: insert the suffix between the name and the
extension produced by `os.path.splitext`. -/
def get_output_filename (input_filename : String) : String :=
  let pair := splitext input_filename.data
  ⟨pair.1 ++ outputSuffix.data ++ pair.2⟩

/-- Python `int(value)` on a string, as used by `get_config_int`. -/
def parseInt (s : String) : Option Int :=
  (s.trim).toInt?

/-- An environment: `os.getenv` for each variable name. -/
abbrev Env := String → Option String

/-- utils.get_config_int: environment value if present and parseable as
an int, otherwise the default (an unparseable value is NOT an error: it
falls back to the default). -/
def get_config_int (env : Env) (var_name : String) (default_value : Int) : Int :=
  match env var_name with
  | none => default_value
  | some value =>
    match parseInt value with
    | some n => n
    | none => default_value

/-- utils.retry_with_backoff, instrumented with the list of delays slept
between failed attempts.  `func` is indexed by the attempt number
(0-based), returning the outcome of that attempt.  Returns
`(result, delays)` where `result` is the first success or the error of
the final attempt (re-raised), and `delays` are `base_delay * 2^attempt`
for each failed non-final attempt, in order. -/
def retryAux (func : Nat → Except String ByteSeq) (base_delay : Nat)
    (attempt : Nat) : Nat → Except String ByteSeq × List Nat
  | 0 => (.error "retry loop exhausted", [])
  | remaining + 1 =>
    match func attempt with
    | .ok v => (.ok v, [])
    | .error e =>
      if remaining = 0 then
        (.error e, [])
      else
        let delay := base_delay * 2 ^ attempt
        let rest := retryAux func base_delay (attempt + 1) remaining
        (rest.1, delay :: rest.2)

/-- utils.retry_with_backoff with its default `max_retries = 3`. -/
def retry_with_backoff (func : Nat → Except String ByteSeq)
    (max_retries : Nat) (base_delay : Nat) : Except String ByteSeq × List Nat :=
  retryAux func base_delay 0 max_retries

/-! ## azure_client.py -/

/-- The required environment variables of `AzureClients._validate_config`. -/
def required_vars : List String :=
  ["AZURE_STORAGE_ACCOUNT_NAME",
   "AZURE_STORAGE_CONTAINER_NAME",
   "AZURE_STORAGE_OUTPUT_CONTAINER",
   "AZURE_DOCUMENT_INTELLIGENCE_ENDPOINT",
   "AZURE_DOCUMENT_INTELLIGENCE_KEY"]

/-- Python truthiness of `os.getenv(var)`: `None` and the empty string
are falsy. -/
def envTruthy (v : Option String) : Bool :=
  match v with
  | none => false
  | some s => ¬ s.isEmpty

/-- AzureClients._validate_config: raise `ValueError` when any required
variable is unset or empty. -/
def validate_config (env : Env) : Except String Unit :=
  let missing_vars := required_vars.filter (fun var => ¬ envTruthy (env var))
  if missing_vars.isEmpty then
    .ok ()
  else
    .error ("Missing required environment variables: " ++ String.intercalate ", " missing_vars)

/-- The configuration the later pipeline stages read from a constructed
client (container names and credentials, abstracted to the environment
snapshot). -/
structure AzureClients where
  env : Env

/-- AzureClients.__init__: `_validate_config` runs before any client is
created; a validation error aborts construction, so no processor (and
hence no item processing) can follow. -/
def mkAzureClients (env : Env) : Except String AzureClients :=
  match validate_config env with
  | .error e => .error e
  | .ok _ => .ok { env := env }

/-! ## pdf_processor.py: the Document Intelligence step -/

/-- Answer of the single `requests.post` submit call. -/
inductive SubmitResponse
  /-- HTTP 202 with the `operation-location` header (or its absence). -/
  | accepted (opLocation : Option String)
  /-- Any non-202 status, with the response text. -/
  | other (status : Nat) (text : String)
  /-- The request itself raised (network error, timeout, ...). -/
  | raised (msg : String)

/-- Answer of one poll GET. -/
inductive PollResponse
  /-- HTTP 200; `status` is the JSON status field (defaulting to
  "unknown" when absent), `errMsg` the error message used when the
  status is "failed". -/
  | ok (status : String) (errMsg : String)
  /-- Any non-200 status code. -/
  | httpError (code : Nat)
  /-- The request itself raised. -/
  | raised (msg : String)

/-- Answer of the SDK fallback's `begin_analyze_document(...).result()`. -/
inductive SdkResponse
  /-- A result whose `content` attribute is non-empty. -/
  | content (text : String)
  /-- No result, or a result with empty/absent content. -/
  | noContent
  /-- The SDK call raised. -/
  | raised (msg : String)

/-- Oracle for every external behavior of the remote analysis service
seen by `_process_with_document_intelligence`: the answer a submit POST
would get on its n-th attempt (1-based; the code only ever issues
attempt 1), the answer of each poll attempt (1-based), and the SDK
fallback answer. -/
structure DIOracle where
  submit : Nat → SubmitResponse
  poll : Nat → PollResponse
  sdk : SdkResponse

/-- PDFProcessor._fallback_process_with_sdk: every path — content
extracted, no content, or the SDK raising — returns the original
`pdf_data` unchanged; the function never raises. -/
def fallback_process_with_sdk (o : DIOracle) (pdf_data : ByteSeq) : ByteSeq :=
  match o.sdk with
  | .content _ => pdf_data
  | .noContent => pdf_data
  | .raised _ => pdf_data

/-- The `while attempts < max_attempts` poll loop, by recursion on the
remaining attempts.  `polls` counts the poll requests already issued.
Returns the outcome of the surrounding `try` block (an `Except`, where
`.error` is a raised exception) together with the total number of poll
requests issued. -/
def pollLoop (o : DIOracle) (pdf_data : ByteSeq) (polls : Nat) :
    Nat → Except String ByteSeq × Nat
  | 0 => (.error "OCR analysis timed out", polls)
  | remaining + 1 =>
    match o.poll (polls + 1) with
    | .ok status errMsg =>
      if status = "succeeded" then
        (.ok pdf_data, polls + 1)
      else if status = "failed" then
        (.error ("OCR analysis failed: " ++ errMsg), polls + 1)
      else
        pollLoop o pdf_data (polls + 1) remaining
    | .httpError code =>
      (.error ("Failed to poll results: HTTP " ++ toString code), polls + 1)
    | .raised msg => (.error msg, polls + 1)

/-- The `max_attempts = 60` bound of the poll loop. -/
def max_attempts : Nat := 60

/-- The body of the `try` block of
`_process_with_document_intelligence`: the single `requests.post`
submit, then — on 202 with an operation location — the bounded poll
loop.  Returns the `try`-block outcome and the number of poll requests
issued. -/
def restPath (o : DIOracle) (pdf_data : ByteSeq) : Except String ByteSeq × Nat :=
  match o.submit 1 with
  | .accepted none => (.error "No operation-location header in response", 0)
  | .accepted (some _) => pollLoop o pdf_data 0 max_attempts
  | .other status text =>
    (.error ("Failed to start OCR analysis: HTTP " ++ toString status ++ " - " ++ text), 0)
  | .raised msg => (.error msg, 0)

/-- Instrumented result of `_process_with_document_intelligence`. -/
structure DIResult where
  /-- The returned bytes. -/
  output : ByteSeq
  /-- How many times the submit POST was issued. -/
  submitCalls : Nat
  /-- How many poll GETs were issued. -/
  pollCalls : Nat
  /-- Whether the SDK fallback ran (the `except` branch). -/
  usedFallback : Bool

/-- PDFProcessor._process_with_document_intelligence: try the REST path;
any exception from it (submit failure, missing header, poll failure,
remote failure, or poll timeout) is caught and answered by the SDK
fallback.  The submit POST is issued exactly once — there is no retry
wrapper around it. -/
def process_with_document_intelligence (o : DIOracle) (pdf_data : ByteSeq) : DIResult :=
  match restPath o pdf_data with
  | (.ok out, polls) =>
    { output := out, submitCalls := 1, pollCalls := polls, usedFallback := false }
  | (.error _, polls) =>
    { output := fallback_process_with_sdk o pdf_data, submitCalls := 1,
      pollCalls := polls, usedFallback := true }

/-! ## pdf_processor.py: one item, the scheduler, the idempotency filter -/

/-- Oracle for the blob-store effects of one `process_single_pdf` call:
the download (which may raise) and the upload (which may raise),
together with the analysis-service oracle. -/
structure ItemOracle where
  download : Except String ByteSeq
  di : DIOracle
  upload : ByteSeq → String → Except String Unit

/-- PDFProcessor._upload_processed_pdf: any upload exception is
re-raised wrapped in an "upload failed" message. -/
def upload_processed_pdf (o : ItemOracle) (pdf_data : ByteSeq)
    (output_filename : String) : Except String Unit :=
  match o.upload pdf_data output_filename with
  | .ok _ => .ok ()
  | .error e => .error ("Failed to upload " ++ output_filename ++ ": " ++ e)

/-- The `try` block of `process_single_pdf`: download, analyze, upload.
An `.error` is an exception escaping the block into the `except`
clause. -/
def process_single_pdf_body (o : ItemOracle) (blob_name : String) :
    Except String (Bool × String) :=
  match o.download with
  | .error e => .error e
  | .ok pdf_data =>
    let searchable := (process_with_document_intelligence o.di pdf_data).output
    let output_filename := get_output_filename blob_name
    match upload_processed_pdf o searchable output_filename with
    | .error e => .error e
    | .ok _ => .ok (true, "Successfully processed " ++ blob_name)

/-- PDFProcessor.process_single_pdf as its caller observes it: an
`.error` here would be an exception escaping the whole function.  The
`except Exception` clause catches every error of the body and converts
it into a normal `(False, message)` return, so no `.error` remains. -/
def process_single_pdf_exc (o : ItemOracle) (blob_name : String) :
    Except String (Bool × String) :=
  match process_single_pdf_body o blob_name with
  | .ok r => .ok r
  | .error e => .ok (false, "Failed to process " ++ blob_name ++ ": " ++ e)

/-- The `(success, message)` pair `process_single_pdf` returns (it never
raises; see `process_single_pdf_exc`). -/
def process_single_pdf (o : ItemOracle) (blob_name : String) : Bool × String :=
  match process_single_pdf_exc o blob_name with
  | .ok r => r
  | .error e => (false, e)

/-- What one submitted future delivers to the scheduler when its
`result()` is taken: a normal `(success, message)` return, or a raised
exception. -/
inductive ProcResult
  | ok (success : Bool) (message : String)
  | exn (e : String)

/-- What the future of a submitted `process_single_pdf(blob_name)` call
delivers to the scheduler: the returned pair when the call returns, the
raised exception otherwise. -/
def futureResult (o : ItemOracle) (blob_name : String) : ProcResult :=
  match process_single_pdf_exc o blob_name with
  | .ok r => .ok r.1 r.2
  | .error e => .exn e

/-- One iteration of the scheduler's `for future in as_completed(...)`
body, reduced to the per-item outcome it records: `future.result()`
inside a `try` whose `except` branch converts an escaped exception into
a failed outcome. -/
def collectOutcome (r : ProcResult) : Bool :=
  match r with
  | .ok success _ => success
  | .exn _ => false

/-- PDFProcessor.process_all_pdfs, as the per-item outcomes it records:
one future per element of `pdf_files` (the dict of futures has one fresh
future per submit call, so duplicates of a name are preserved), and
exactly one recorded outcome per future. -/
def process_all_pdfs (behavior : String → ProcResult) (pdf_files : List String) :
    List (String × Bool) :=
  pdf_files.map (fun f => (f, collectOutcome (behavior f)))

/-- The progress counters derived from the recorded outcomes:
`ProgressTracker.update(failed=not success)` increments `completed` on
success and `failed` otherwise. -/
def completedCount : List (String × Bool) → Nat
  | [] => 0
  | r :: rest => (if r.2 then 1 else 0) + completedCount rest

/-- Failed counter of the run. -/
def failedCount : List (String × Bool) → Nat
  | [] => 0
  | r :: rest => (if r.2 then 0 else 1) + failedCount rest

/-- The recursion of `check_existing_files` over `pdf_files`: route each
file by whether its derived output name is in the output listing. -/
def checkExistingAux (existing_blobs : List String) :
    List String → List String × List String
  | [] => ([], [])
  | pdf_file :: rest =>
    let pair := checkExistingAux existing_blobs rest
    if get_output_filename pdf_file ∈ existing_blobs then
      (pair.1, pdf_file :: pair.2)
    else
      (pdf_file :: pair.1, pair.2)

/-- PDFProcessor.check_existing_files: list the output container once;
on success partition into `(files_to_process, files_already_processed)`;
if the listing raises, return `(pdf_files, [])` — everything is treated
as unprocessed and the run proceeds. -/
def check_existing_files (listing : Except String (List String))
    (pdf_files : List String) : List String × List String :=
  match listing with
  | .ok existing_blobs => checkExistingAux existing_blobs pdf_files
  | .error _ => (pdf_files, [])

/-! ## The worker pool of process_all_pdfs -/

/-- The `max_workers` value passed to the pool:
`get_config_int('MAX_CONCURRENT_OPERATIONS', 5)`. -/
def max_concurrent_operations (env : Env) : Nat :=
  (get_config_int env "MAX_CONCURRENT_OPERATIONS" 5).toNat

/-- Modelled from the spec: the state of the fixed-size worker pool
(`ThreadPoolExecutor`, an external collaborator whose code is not in the
repository): tasks still queued, tasks currently running on a worker,
tasks finished.  Tasks are identified by index. -/
structure PoolState where
  queued : List Nat
  running : List Nat
  done : List Nat

/-- Modelled from the spec: one scheduling step of the pool with `n`
workers.  A queued task may start only while fewer than `n` tasks are
running; a running task may finish at any time. -/
inductive PoolStep (n : Nat) : PoolState → PoolState → Prop
  /-- Start the next queued task on a free worker. -/
  | start (t : Nat) (q r d : List Nat) (h : r.length < n) :
    PoolStep n ⟨t :: q, r, d⟩ ⟨q, t :: r, d⟩
  /-- A running task finishes and frees its worker. -/
  | finish (t : Nat) (q r₁ r₂ d : List Nat) :
    PoolStep n ⟨q, r₁ ++ t :: r₂, d⟩ ⟨q, r₁ ++ r₂, t :: d⟩

/-- The pool state right after `process_all_pdfs` submitted every item:
all tasks queued, none running. -/
def initPool (tasks : List Nat) : PoolState :=
  ⟨tasks, [], []⟩

/-- States the pool with `n` workers can reach from `init`. -/
inductive PoolReachable (n : Nat) (init : PoolState) : PoolState → Prop
  | refl : PoolReachable n init init
  | step {s t : PoolState} (hs : PoolReachable n init s) (hstep : PoolStep n s t) :
    PoolReachable n init t

/-! ## Helper lemmas -/

/-- Name and extension of `splitext` concatenate back to the input. -/
theorem splitext_append (p : List Char) : (splitext p).1 ++ (splitext p).2 = p := by
  simp only [splitext]
  split
  · split
    · simp
    · simp
  · simp

/-- An `.ok` outcome of the poll loop always carries the original bytes. -/
theorem pollLoop_ok_eq (o : DIOracle) (pdf_data out : ByteSeq) :
    ∀ (fuel polls : Nat), (pollLoop o pdf_data polls fuel).1 = .ok out →
      out = pdf_data := by
  intro fuel
  induction fuel with
  | zero => intro polls h; simp [pollLoop] at h
  | succ k ih =>
    intro polls h
    cases hp : o.poll (polls + 1) with
    | ok status errMsg =>
      simp only [pollLoop, hp] at h
      by_cases h1 : status = "succeeded"
      · rw [if_pos h1] at h
        exact (Except.ok.inj h).symm
      · rw [if_neg h1] at h
        by_cases h2 : status = "failed"
        · rw [if_pos h2] at h
          exact absurd h (by simp)
        · rw [if_neg h2] at h
          exact ih _ h
    | httpError code => simp only [pollLoop, hp] at h; exact absurd h (by simp)
    | raised msg => simp only [pollLoop, hp] at h; exact absurd h (by simp)

/-- An `.ok` outcome of the REST path always carries the original bytes. -/
theorem restPath_ok_eq (o : DIOracle) (pdf_data out : ByteSeq)
    (h : (restPath o pdf_data).1 = .ok out) : out = pdf_data := by
  cases hs : o.submit 1 with
  | accepted opLoc =>
    cases opLoc with
    | none => simp only [restPath, hs] at h; exact absurd h (by simp)
    | some loc =>
      simp only [restPath, hs] at h
      exact pollLoop_ok_eq o pdf_data out max_attempts 0 h
  | other status text => simp only [restPath, hs] at h; exact absurd h (by simp)
  | raised msg => simp only [restPath, hs] at h; exact absurd h (by simp)

/-- The SDK fallback returns the original bytes on every oracle answer. -/
theorem fallback_eq (o : DIOracle) (pdf_data : ByteSeq) :
    fallback_process_with_sdk o pdf_data = pdf_data := by
  unfold fallback_process_with_sdk
  cases o.sdk <;> rfl

/-- The output of the analysis step equals the input bytes, whatever the
service does. -/
theorem di_output_eq (o : DIOracle) (pdf_data : ByteSeq) :
    (process_with_document_intelligence o pdf_data).output = pdf_data := by
  unfold process_with_document_intelligence
  cases hr : restPath o pdf_data with
  | mk res polls =>
    cases res with
    | ok out =>
      have hout : out = pdf_data := restPath_ok_eq o pdf_data out (by rw [hr])
      dsimp only
      exact hout
    | error e =>
      dsimp only
      exact fallback_eq o pdf_data

/-- Membership and size description of `checkExistingAux`. -/
theorem checkExistingAux_spec (existing : List String) (files : List String) :
    (∀ f, f ∈ (checkExistingAux existing files).1 ↔
      f ∈ files ∧ get_output_filename f ∉ existing) ∧
    (∀ f, f ∈ (checkExistingAux existing files).2 ↔
      f ∈ files ∧ get_output_filename f ∈ existing) ∧
    (checkExistingAux existing files).1.length +
      (checkExistingAux existing files).2.length = files.length := by
  induction files with
  | nil => simp [checkExistingAux]
  | cons x rest ih =>
    obtain ⟨ih1, ih2, ih3⟩ := ih
    by_cases hx : get_output_filename x ∈ existing
    · refine ⟨?_, ?_, ?_⟩
      · intro f
        simp only [checkExistingAux, if_pos hx, List.mem_cons, ih1]
        constructor
        · rintro ⟨hf, hnf⟩; exact ⟨Or.inr hf, hnf⟩
        · rintro ⟨hf | hf, hnf⟩
          · exact absurd hx (hf ▸ hnf)
          · exact ⟨hf, hnf⟩
      · intro f
        simp only [checkExistingAux, if_pos hx, List.mem_cons, ih2]
        constructor
        · rintro (hf | ⟨hf, he⟩)
          · exact ⟨Or.inl hf, hf ▸ hx⟩
          · exact ⟨Or.inr hf, he⟩
        · rintro ⟨hf | hf, he⟩
          · exact Or.inl hf
          · exact Or.inr ⟨hf, he⟩
      · simp only [checkExistingAux, if_pos hx, List.length_cons]
        omega
    · refine ⟨?_, ?_, ?_⟩
      · intro f
        simp only [checkExistingAux, if_neg hx, List.mem_cons, ih1]
        constructor
        · rintro (hf | ⟨hf, he⟩)
          · exact ⟨Or.inl hf, hf ▸ hx⟩
          · exact ⟨Or.inr hf, he⟩
        · rintro ⟨hf | hf, he⟩
          · exact Or.inl hf
          · exact Or.inr ⟨hf, he⟩
      · intro f
        simp only [checkExistingAux, if_neg hx, List.mem_cons, ih2]
        constructor
        · rintro ⟨hf, he⟩; exact ⟨Or.inr hf, he⟩
        · rintro ⟨hf | hf, he⟩
          · exact absurd (hf ▸ he) hx
          · exact ⟨hf, he⟩
      · simp only [checkExistingAux, if_neg hx, List.length_cons]
        omega

/-- Completed and failed counters of a run sum to the number of
recorded outcomes. -/
theorem completed_add_failed (outcomes : List (String × Bool)) :
    completedCount outcomes + failedCount outcomes = outcomes.length := by
  induction outcomes with
  | nil => rfl
  | cons r rest ih =>
    cases hb : r.2 <;> simp [completedCount, failedCount, hb] <;> omega

/-! ## Claims -/

/-- C1: for every list of work items, `process_all_pdfs` records exactly
one outcome per item, in one-to-one correspondence with the submitted
items (no duplicates, no drops, completed + failed = number of items),
and a future whose `result()` raises an unexpected exception is recorded
as a failed outcome for its item rather than aborting the batch. -/
theorem C1_scheduler_one_outcome_per_item
    (behavior : String → ProcResult) (pdf_files : List String) :
    (process_all_pdfs behavior pdf_files).map Prod.fst = pdf_files ∧
    (process_all_pdfs behavior pdf_files).length = pdf_files.length ∧
    completedCount (process_all_pdfs behavior pdf_files) +
      failedCount (process_all_pdfs behavior pdf_files) = pdf_files.length ∧
    (∀ f e, f ∈ pdf_files → behavior f = .exn e →
      (f, false) ∈ process_all_pdfs behavior pdf_files) := by
  refine ⟨?_, ?_, ?_, ?_⟩
  · simp [process_all_pdfs, List.map_map, Function.comp_def]
  · simp [process_all_pdfs]
  · rw [completed_add_failed]
    simp [process_all_pdfs]
  · intro f e hf hb
    refine List.mem_map.mpr ⟨f, hf, ?_⟩
    rw [hb]
    rfl

/-- C1 witness: a concrete three-item batch in which one item returns
failure and one raises an unexpected exception still records one outcome
per item. -/
theorem C1_witness :
    (process_all_pdfs
      (fun f => if f = "a.pdf" then .ok true "done"
        else if f = "b.pdf" then .ok false "bad"
        else .exn "boom")
      ["a.pdf", "b.pdf", "c.pdf"]).map Prod.fst = ["a.pdf", "b.pdf", "c.pdf"] ∧
    completedCount (process_all_pdfs
      (fun f => if f = "a.pdf" then .ok true "done"
        else if f = "b.pdf" then .ok false "bad"
        else .exn "boom")
      ["a.pdf", "b.pdf", "c.pdf"]) +
    failedCount (process_all_pdfs
      (fun f => if f = "a.pdf" then .ok true "done"
        else if f = "b.pdf" then .ok false "bad"
        else .exn "boom")
      ["a.pdf", "b.pdf", "c.pdf"]) = 3 ∧
    ("c.pdf", false) ∈ process_all_pdfs
      (fun f => if f = "a.pdf" then .ok true "done"
        else if f = "b.pdf" then .ok false "bad"
        else .exn "boom")
      ["a.pdf", "b.pdf", "c.pdf"] := by
  have h := C1_scheduler_one_outcome_per_item
    (fun f => if f = "a.pdf" then .ok true "done"
      else if f = "b.pdf" then .ok false "bad"
      else .exn "boom")
    ["a.pdf", "b.pdf", "c.pdf"]
  exact ⟨h.1, h.2.2.1, h.2.2.2 "c.pdf" "boom" (by decide) rfl⟩

/-- C4: on a successful output-container listing, `check_existing_files`
routes an item to the already-processed list exactly when
`get_output_filename` of its source key is in the listing, to the
to-process list otherwise, and the partition is total and disjoint. -/
theorem C4_partition_total_disjoint (existing : List String)
    (pdf_files : List String) :
    (∀ f, f ∈ (check_existing_files (.ok existing) pdf_files).2 ↔
      f ∈ pdf_files ∧ get_output_filename f ∈ existing) ∧
    (∀ f, f ∈ (check_existing_files (.ok existing) pdf_files).1 ↔
      f ∈ pdf_files ∧ get_output_filename f ∉ existing) ∧
    (check_existing_files (.ok existing) pdf_files).1.length +
      (check_existing_files (.ok existing) pdf_files).2.length =
      pdf_files.length ∧
    (∀ f, ¬ (f ∈ (check_existing_files (.ok existing) pdf_files).1 ∧
      f ∈ (check_existing_files (.ok existing) pdf_files).2)) := by
  obtain ⟨h1, h2, h3⟩ := checkExistingAux_spec existing pdf_files
  refine ⟨h2, h1, h3, ?_⟩
  rintro f ⟨hp, ha⟩
  exact ((h1 f).mp hp).2 ((h2 f).mp ha).2

/-- C5: `get_output_filename` is total and deterministic, inserts the
`_searchable` suffix before the extension (report.pdf becomes
report_searchable.pdf, and a.pdf and b.pdf derive distinct keys), and is
injective on inputs sharing the same `splitext` extension. -/
theorem C5_derive_output_key :
    (∀ s : String, get_output_filename s = get_output_filename s) ∧
    get_output_filename "report.pdf" = "report_searchable.pdf" ∧
    get_output_filename "a.pdf" ≠ get_output_filename "b.pdf" ∧
    (∀ p q : String, (splitext p.data).2 = (splitext q.data).2 →
      get_output_filename p = get_output_filename q → p = q) := by
  refine ⟨fun s => rfl, by decide, by decide, ?_⟩
  intro p q he h
  have hd : (splitext p.data).1 ++ outputSuffix.data ++ (splitext p.data).2 =
      (splitext q.data).1 ++ outputSuffix.data ++ (splitext q.data).2 :=
    congrArg String.data h
  rw [he] at hd
  have hn : (splitext p.data).1 = (splitext q.data).1 :=
    List.append_cancel_right (List.append_cancel_right hd)
  have hpq : p.data = q.data := by
    rw [← splitext_append p.data, ← splitext_append q.data, hn, he]
  exact congrArg String.mk hpq

/-- C5 witness: applying the injectivity half at a concrete input with
its hypotheses discharged. -/
theorem C5_witness :
    (splitext ("x.pdf" : String).data).2 = (splitext ("x.pdf" : String).data).2 ∧
    ("x.pdf" : String) = "x.pdf" :=
  ⟨rfl, C5_derive_output_key.2.2.2 "x.pdf" "x.pdf" rfl rfl⟩

/-- C6: when listing the output container raises, `check_existing_files`
returns the whole input as to-process and an empty already-processed
list instead of aborting. -/
theorem C6_listing_failure_processes_all (e : String)
    (pdf_files : List String) :
    check_existing_files (.error e) pdf_files = (pdf_files, []) := rfl

/-- C9: for every input and every behavior of the remote analysis
service, the analysis step returns the original input bytes unchanged,
on the REST success path and on every SDK-fallback path alike, so a
successful item uploads bytes identical to the source blob. -/
theorem C9_returns_original_bytes (o : DIOracle) (pdf_data : ByteSeq) :
    (process_with_document_intelligence o pdf_data).output = pdf_data ∧
    fallback_process_with_sdk o pdf_data = pdf_data :=
  ⟨di_output_eq o pdf_data, fallback_eq o pdf_data⟩

/-- C7: a required configuration variable that is absent (or present but
empty, hence invalid) makes client construction fail with a
configuration error, so no item can be processed. -/
theorem C7_missing_config_fatal (env : Env) (v : String)
    (hv : v ∈ required_vars) (hmiss : env v = none ∨ env v = some "") :
    ∃ msg, mkAzureClients env = .error msg := by
  have hf : envTruthy (env v) = false := by
    cases hmiss with
    | inl h => rw [h]; rfl
    | inr h => rw [h]; rfl
  have hvm : v ∈ required_vars.filter (fun var => ¬ envTruthy (env var)) := by
    rw [List.mem_filter]
    refine ⟨hv, ?_⟩
    rw [hf]
    rfl
  have hemp : (required_vars.filter (fun var => ¬ envTruthy (env var))).isEmpty = false := by
    cases hmv : required_vars.filter (fun var => ¬ envTruthy (env var)) with
    | nil => rw [hmv] at hvm; cases hvm
    | cons a l => rfl
  have hval : validate_config env = .error ("Missing required environment variables: " ++
      String.intercalate ", " (required_vars.filter (fun var => ¬ envTruthy (env var)))) := by
    simp only [validate_config]
    rw [hemp]
    rfl
  refine ⟨"Missing required environment variables: " ++
    String.intercalate ", " (required_vars.filter (fun var => ¬ envTruthy (env var))), ?_⟩
  unfold mkAzureClients
  rw [hval]

/-- C7 witness: the empty environment fails client construction. -/
theorem C7_witness :
    ("AZURE_STORAGE_ACCOUNT_NAME" ∈ required_vars) ∧
    ∃ msg, mkAzureClients (fun _ => none) = .error msg :=
  ⟨by decide,
   C7_missing_config_fatal (fun _ => none) "AZURE_STORAGE_ACCOUNT_NAME"
     (by decide) (Or.inl rfl)⟩

/-- Every state the pool can reach keeps at most `n` tasks running. -/
theorem poolReachable_running_le (n : Nat) (tasks : List Nat) (s : PoolState)
    (h : PoolReachable n (initPool tasks) s) : s.running.length ≤ n := by
  induction h with
  | refl => simp [initPool]
  | step hs hstep ih =>
    cases hstep with
    | start t q r d hlt => simpa using hlt
    | finish t q r₁ r₂ d =>
      simp only [List.length_append, List.length_cons] at ih ⊢
      omega

/-- C8: in every reachable pool state, at most `max_concurrent_operations`
items run simultaneously, and the configured bound defaults to 5 when
the environment does not set it. -/
theorem C8_concurrency_bound :
    (∀ (env : Env) (tasks : List Nat) (s : PoolState),
      PoolReachable (max_concurrent_operations env) (initPool tasks) s →
      s.running.length ≤ max_concurrent_operations env) ∧
    (∀ env : Env, env "MAX_CONCURRENT_OPERATIONS" = none →
      max_concurrent_operations env = 5) := by
  constructor
  · intro env tasks s h
    exact poolReachable_running_le _ tasks s h
  · intro env h
    simp [max_concurrent_operations, get_config_int, h]

/-- C8 witness: starting one of six queued tasks under the default
environment keeps the running count within the default bound of 5. -/
theorem C8_witness :
    (PoolState.mk [1, 2, 3, 4, 5] [0] []).running.length ≤
      max_concurrent_operations (fun _ => none) ∧
    max_concurrent_operations (fun _ => none) = 5 :=
  ⟨C8_concurrency_bound.1 (fun _ => none) [0, 1, 2, 3, 4, 5]
      (PoolState.mk [1, 2, 3, 4, 5] [0] [])
      (PoolReachable.step PoolReachable.refl
        (PoolStep.start 0 [1, 2, 3, 4, 5] [] [] (by decide))),
    C8_concurrency_bound.2 (fun _ => none) rfl⟩

/-- The wrapped `process_single_pdf` always returns a normal pair. -/
theorem process_single_pdf_exc_ok (o : ItemOracle) (blob_name : String) :
    ∃ b m, process_single_pdf_exc o blob_name = .ok (b, m) := by
  unfold process_single_pdf_exc
  cases h : process_single_pdf_body o blob_name with
  | ok r => exact ⟨r.1, r.2, rfl⟩
  | error e => exact ⟨false, _, rfl⟩

/-- C10: `process_single_pdf` is total over exceptions — it always
returns a `(success, message)` pair and never raises — so the future of
every item delivers a normal result and the scheduler's
unexpected-exception branch is unreachable: the recorded outcomes are
exactly the returned success flags. -/
theorem C10_process_single_total (o : ItemOracle) (blob_name : String) :
    (∃ b m, process_single_pdf_exc o blob_name = .ok (b, m)) ∧
    (∀ e, futureResult o blob_name ≠ .exn e) ∧
    (∀ (oracles : String → ItemOracle) (files : List String),
      process_all_pdfs (fun f => futureResult (oracles f) f) files =
        files.map (fun f => (f, (process_single_pdf (oracles f) f).1))) := by
  refine ⟨process_single_pdf_exc_ok o blob_name, ?_, ?_⟩
  · intro e
    obtain ⟨b, m, hbm⟩ := process_single_pdf_exc_ok o blob_name
    simp [futureResult, hbm]
  · intro oracles files
    have hfun : ∀ f, collectOutcome (futureResult (oracles f) f) =
        (process_single_pdf (oracles f) f).1 := by
      intro f
      obtain ⟨b, m, hbm⟩ := process_single_pdf_exc_ok (oracles f) f
      simp [futureResult, process_single_pdf, collectOutcome, hbm]
    simp only [process_all_pdfs]
    exact congrArg (fun fn => List.map fn files) (funext fun f => by rw [hfun f])

/-- The poll loop on a never-Pending-leaving operation times out after
exactly the remaining attempts. -/
theorem pollLoop_pending (o : DIOracle) (pdf_data : ByteSeq)
    (hp : ∀ n, o.poll n = .ok "running" "") :
    ∀ (fuel polls : Nat),
      pollLoop o pdf_data polls fuel = (.error "OCR analysis timed out", polls + fuel) := by
  intro fuel
  induction fuel with
  | zero => intro polls; simp [pollLoop]
  | succ k ih =>
    intro polls
    simp only [pollLoop, hp (polls + 1)]
    rw [if_neg (by decide), if_neg (by decide)]
    rw [ih (polls + 1)]
    have harith : polls + 1 + k = polls + (k + 1) := by omega
    rw [harith]

/-- The poll loop issues at most `polls + fuel` poll requests. -/
theorem pollLoop_polls_le (o : DIOracle) (pdf_data : ByteSeq) :
    ∀ (fuel polls : Nat), (pollLoop o pdf_data polls fuel).2 ≤ polls + fuel := by
  intro fuel
  induction fuel with
  | zero => intro polls; simp [pollLoop]
  | succ k ih =>
    intro polls
    cases hp : o.poll (polls + 1) with
    | ok status errMsg =>
      simp only [pollLoop, hp]
      by_cases h1 : status = "succeeded"
      · rw [if_pos h1]; dsimp only; omega
      · rw [if_neg h1]
        by_cases h2 : status = "failed"
        · rw [if_pos h2]; dsimp only; omega
        · rw [if_neg h2]
          have := ih (polls + 1)
          omega
    | httpError code => simp only [pollLoop, hp]; omega
    | raised msg => simp only [pollLoop, hp]; omega

/-- The REST path issues at most `max_attempts` poll requests. -/
theorem restPath_polls_le (o : DIOracle) (pdf_data : ByteSeq) :
    (restPath o pdf_data).2 ≤ max_attempts := by
  unfold restPath
  cases hs : o.submit 1 with
  | accepted opLoc =>
    cases opLoc with
    | none => simp
    | some loc => simpa using pollLoop_polls_le o pdf_data max_attempts 0
  | other status text => simp
  | raised msg => simp

/-- The analysis step reports exactly the REST path's poll count. -/
theorem di_pollCalls_eq (o : DIOracle) (pdf_data : ByteSeq) :
    (process_with_document_intelligence o pdf_data).pollCalls =
      (restPath o pdf_data).2 := by
  unfold process_with_document_intelligence
  cases hr : restPath o pdf_data with
  | mk res polls => cases res <;> rfl

/-- The analysis step polls at most `max_attempts` times. -/
theorem di_pollCalls_le (o : DIOracle) (pdf_data : ByteSeq) :
    (process_with_document_intelligence o pdf_data).pollCalls ≤ max_attempts := by
  rw [di_pollCalls_eq]
  exact restPath_polls_le o pdf_data

/-- C2 (amended): the poll loop re-queries at most the 60-attempt
ceiling; an operation that never leaves Pending consumes exactly 60
polls, after which the internal timeout exception is caught and the SDK
fallback answers with the original bytes — a degraded success, not a
Timeout-classified Failure, and never a hang or a crash. -/
theorem C2_poll_bounded_timeout_degrades (o : DIOracle) (pdf_data : ByteSeq)
    (loc : String) (hs : o.submit 1 = .accepted (some loc))
    (hp : ∀ n, o.poll n = .ok "running" "") :
    (process_with_document_intelligence o pdf_data).pollCalls = max_attempts ∧
    (process_with_document_intelligence o pdf_data).usedFallback = true ∧
    (process_with_document_intelligence o pdf_data).output = pdf_data ∧
    (∀ (o2 : DIOracle) (pdf2 : ByteSeq),
      (process_with_document_intelligence o2 pdf2).pollCalls ≤ max_attempts) := by
  have hrest : restPath o pdf_data = (.error "OCR analysis timed out", max_attempts) := by
    simp only [restPath, hs]
    simpa using pollLoop_pending o pdf_data hp max_attempts 0
  refine ⟨?_, ?_, di_output_eq o pdf_data, fun o2 pdf2 => di_pollCalls_le o2 pdf2⟩
  · unfold process_with_document_intelligence
    rw [hrest]
  · unfold process_with_document_intelligence
    rw [hrest]

/-- A concrete PDF byte string ("%PDF"). -/
def samplePdf : ByteSeq := [37, 80, 68, 70]

/-- An analysis service whose operation never leaves the Pending
state. -/
def pendingOracle : DIOracle :=
  ⟨fun _ => .accepted (some "op-loc"), fun _ => .ok "running" "", .content "text"⟩

/-- A working blob store around `pendingOracle`. -/
def pendingItemOracle : ItemOracle :=
  ⟨.ok samplePdf, pendingOracle, fun _ _ => .ok ()⟩

/-- C2 counterexample: for an operation that never leaves Pending, the
poll ceiling is hit (60 polls) but the item terminates in Success with
the original bytes via the SDK fallback, not in a Timeout-classified
Failure. -/
theorem C2_counterexample :
    (process_with_document_intelligence pendingOracle samplePdf).pollCalls = 60 ∧
    (process_with_document_intelligence pendingOracle samplePdf).usedFallback = true ∧
    process_single_pdf pendingItemOracle "doc.pdf" =
      (true, "Successfully processed doc.pdf") :=
  ⟨rfl, rfl, rfl⟩

/-- C2 witness: the amended statement instantiated at the concrete
never-leaving-Pending oracle. -/
theorem C2_witness :
    (process_with_document_intelligence pendingOracle samplePdf).pollCalls = max_attempts ∧
    (process_with_document_intelligence pendingOracle samplePdf).usedFallback = true ∧
    (process_with_document_intelligence pendingOracle samplePdf).output = samplePdf ∧
    (∀ (o2 : DIOracle) (pdf2 : ByteSeq),
      (process_with_document_intelligence o2 pdf2).pollCalls ≤ max_attempts) :=
  C2_poll_bounded_timeout_degrades pendingOracle samplePdf "op-loc" rfl (fun _ => rfl)

/-- C3 (amended): the repository's `retry_with_backoff` utility does
implement the bounded doubling-backoff policy (fail-fail-succeed records
delays base and 2·base and returns success; three failures re-raise the
last error after the same delays), but the Submit step never uses it:
the submit POST is issued exactly once for every service behavior, and a
failed submission triggers the SDK fallback instead of a retry. -/
theorem C3_submit_not_retried (o : DIOracle) (pdf_data : ByteSeq) :
    (process_with_document_intelligence o pdf_data).submitCalls = 1 ∧
    (∀ (func : Nat → Except String ByteSeq) (base : Nat) (v : ByteSeq) (e0 e1 : String),
      func 0 = .error e0 → func 1 = .error e1 → func 2 = .ok v →
      retry_with_backoff func 3 base = (.ok v, [base, base * 2])) ∧
    (∀ (func : Nat → Except String ByteSeq) (base : Nat) (e0 e1 e2 : String),
      func 0 = .error e0 → func 1 = .error e1 → func 2 = .error e2 →
      retry_with_backoff func 3 base = (.error e2, [base, base * 2])) := by
  refine ⟨?_, ?_, ?_⟩
  · unfold process_with_document_intelligence
    cases hr : restPath o pdf_data with
    | mk res polls => cases res <;> rfl
  · intro func base v e0 e1 h0 h1 h2
    simp [retry_with_backoff, retryAux, h0, h1, h2]
  · intro func base e0 e1 e2 h0 h1 h2
    simp [retry_with_backoff, retryAux, h0, h1, h2]

/-- A service whose submission fails on attempts 1 and 2 and would
succeed on attempt 3, with an immediately succeeding poll. -/
def thirdTimeLuckyOracle : DIOracle :=
  ⟨fun n => if n < 3 then .raised "connection error" else .accepted (some "op-loc"),
   fun _ => .ok "succeeded" "", .noContent⟩

/-- C3 counterexample: even when a third submission attempt would
succeed, the code issues exactly one submit attempt (not 3) and answers
the failure with the SDK fallback — no retry and no recorded backoff
delays ever happen around Submit. -/
theorem C3_counterexample :
    (process_with_document_intelligence thirdTimeLuckyOracle samplePdf).submitCalls = 1 ∧
    (process_with_document_intelligence thirdTimeLuckyOracle samplePdf).usedFallback = true ∧
    (1 : Nat) ≠ 3 :=
  ⟨rfl, rfl, by decide⟩

/-- A submission that fails twice and succeeds on the third attempt. -/
def flakySubmitFunc : Nat → Except String ByteSeq :=
  fun n => if n < 2 then .error "transient" else .ok [1]

/-- C3 witness: the amended statement instantiated at a concrete oracle
and a concrete fail-fail-succeed function with base delay 2. -/
theorem C3_witness :
    (process_with_document_intelligence thirdTimeLuckyOracle samplePdf).submitCalls = 1 ∧
    retry_with_backoff flakySubmitFunc 3 2 = (.ok [1], [2, 2 * 2]) :=
  ⟨(C3_submit_not_retried thirdTimeLuckyOracle samplePdf).1,
   (C3_submit_not_retried thirdTimeLuckyOracle samplePdf).2.1
     flakySubmitFunc 2 [1] "transient" "transient" rfl rfl rfl⟩

end DocIntelLab
